import Mathlib

/-!
Verification of the exam-corrector assessment engine.

Shallow embedding of the scoring, per-student assessment, student matching
and batch-partition logic of the repository.  Scores are modelled as exact
rationals; the Python `round(x, n)` builtin (round-half-to-even on the scaled
value) is modelled by `roundHalfEven`.
-/

namespace ExamCorrector

/-- The Python `round` builtin on a rational: round to the nearest integer, ties to even. -/
def roundHalfEven (x : ℚ) : ℤ :=
  if x - ⌊x⌋ < 1/2 then ⌊x⌋
  else if 1/2 < x - ⌊x⌋ then ⌊x⌋ + 1
  else if ⌊x⌋ % 2 = 0 then ⌊x⌋ else ⌊x⌋ + 1

/-- Python `round(x, 2)`, on rationals. -/
def round2 (x : ℚ) : ℚ := (roundHalfEven (x * 100) : ℚ) / 100

/-- Python `round(x, 1)`, on rationals. -/
def round1 (x : ℚ) : ℚ := (roundHalfEven (x * 10) : ℚ) / 10

/-- The `FeatureType` enum from `exam/assess/__init__.py` (two members). -/
inductive FeatureType where
  | CORE
  | DETAILS_IMPORTANT
deriving DecidableEq, Repr

/-- The `Feature` dataclass from `exam/assess/__init__.py`. -/
structure Feature where
  type : FeatureType
  description : String
deriving DecidableEq, Repr

/-- The `Feature.weight_percentage` property: 0.70 for core, 0.20 for important
details (the 0.10 branch for a hypothetical third type is unreachable since
the enum has exactly two members). -/
def Feature.weight_percentage (f : Feature) : ℚ :=
  match f.type with
  | .CORE => 70/100
  | .DETAILS_IMPORTANT => 20/100

/-- The `FeatureAssessment` pydantic model: verdict plus rationale. -/
structure FeatureAssessment where
  satisfied : Bool
  motivation : String
deriving DecidableEq, Repr

/-- Per-group entry of the `stats` dict built by `calculate_score`. -/
structure GroupStats where
  total : Nat
  satisfied : Nat
  percentage : ℚ
  weight : ℚ
deriving DecidableEq, Repr

/-- The `stats` dict built by `calculate_score` (non-empty case). -/
structure ScoreStats where
  core : GroupStats
  details_important : GroupStats
  scoring_system : String
deriving DecidableEq, Repr

/-- The verdict dictionary `dict[Feature, FeatureAssessment]`, in insertion
order, as a list of pairs. -/
abbrev Assessments := List (Feature × FeatureAssessment)

def core_total (a : Assessments) : Nat :=
  (a.filter (fun p => p.1.type = FeatureType.CORE)).length

def core_satisfied (a : Assessments) : Nat :=
  (a.filter (fun p => p.1.type = FeatureType.CORE ∧ p.2.satisfied)).length

def important_total (a : Assessments) : Nat :=
  (a.filter (fun p => p.1.type = FeatureType.DETAILS_IMPORTANT)).length

def important_satisfied (a : Assessments) : Nat :=
  (a.filter (fun p => p.1.type = FeatureType.DETAILS_IMPORTANT ∧ p.2.satisfied)).length

/-- Format a rational the way a Python `.0f` format specifier does (round to
integer, ties to even, then print). -/
def fmt0 (x : ℚ) : String := toString (roundHalfEven x)

/-- The common tail of `calculate_score` after the weights are fixed:
percentages, rounded score, breakdown text and stats dict. -/
def mkScoreResult (ct cs it is_ : Nat) (core_weight important_weight : ℚ)
    (scoring_system : String) (max_score : ℚ) : ℚ × String × Option ScoreStats :=
  let core_raw : ℚ := (cs : ℚ) / ct * 100
  let important_raw : ℚ := (is_ : ℚ) / it * 100
  let core_percentage : ℚ := if 0 < ct then (cs : ℚ) / ct * core_weight else 0
  let important_percentage : ℚ := if 0 < it then (is_ : ℚ) / it * important_weight else 0
  let final_percentage := core_percentage + important_percentage
  let score := round2 (final_percentage * max_score)
  let breakdown_parts : List String :=
    (if 0 < ct then
      [s!"Core: {cs}/{ct} ({fmt0 core_raw}% → {fmt0 (core_percentage * 100)}%)"]
     else []) ++
    (if 0 < it then
      [s!"Important: {is_}/{it} ({fmt0 important_raw}% → {fmt0 (important_percentage * 100)}%)"]
     else [])
  let breakdown :=
    String.intercalate (" + ") breakdown_parts ++
      s!" = {fmt0 (final_percentage * 100)}% of {max_score} = {score}" ++
      s!" [{scoring_system}]"
  let stats : ScoreStats :=
    { core :=
        { total := ct, satisfied := cs
          percentage := round1 (if 0 < ct then core_raw else 0)
          weight := core_weight }
      details_important :=
        { total := it, satisfied := is_
          percentage := round1 (if 0 < it then important_raw else 0)
          weight := important_weight }
      scoring_system := scoring_system }
  (score, breakdown, some stats)

/-- Embedding of `Assessor.calculate_score` from `exam/assess/__init__.py`.

Returns `(score, breakdown, stats)`; the empty Python stats dict `{}` is
modelled as `none`.  The final branch (no features of either type in a
non-empty dict) is unreachable with a two-member enum but kept for
faithfulness to the source. -/
def calculate_score (assessments : Assessments) (max_score : ℚ) :
    ℚ × String × Option ScoreStats :=
  if assessments.isEmpty then (0, "No features assessed", none)
  else
    let ct := core_total assessments
    let cs := core_satisfied assessments
    let it := important_total assessments
    let is_ := important_satisfied assessments
    if 0 < ct ∧ 0 < it then
      mkScoreResult ct cs it is_ (70/100) (30/100) "70% Core + 30% Important" max_score
    else if 0 < ct then
      mkScoreResult ct cs it is_ 1 0 "100% Core (no Important details)" max_score
    else if 0 < it then
      mkScoreResult ct cs it is_ 0 1 "100% Important (no Core - unusual)" max_score
    else
      (0, "No features assessed", none)

/-- Python strings, for the places where the code inspects their characters
(answer texts and email queries): a Python `str` is a sequence of code
points. -/
abbrev PyStr := List Char

/-- Python `str.lower()`. -/
def pyLower (s : PyStr) : PyStr := s.map Char.toLower

/-- Python `str.strip()`: remove leading and trailing whitespace. -/
def pyStrip (s : PyStr) : PyStr :=
  ((s.dropWhile Char.isWhitespace).reverse.dropWhile Char.isWhitespace).reverse

/-- Python `str.rstrip` with a dot argument: remove trailing dots. -/
def pyRstripDot (s : PyStr) : PyStr := (s.reverse.dropWhile (· = '.')).reverse

/-- A question as consumed by the assessor (`Question` with id and text). -/
structure Question where
  id : String
  text : String
deriving DecidableEq, Repr

/-- The `Answer` pydantic model from `exam/solution/__init__.py`: the checklist of
core and important-detail feature descriptions for one question. -/
structure Answer where
  core : List String
  details_important : List String
deriving DecidableEq, Repr

/-- Embedding of `enumerate_features` from `exam/assess/__init__.py`: core features first,
then important details, with a running index.  The `if not answer` guard fires
only for `None`, which the `Option Answer` at the call sites models. -/
def enumerate_features (answer : Answer) : List (Nat × Feature) :=
  (answer.core.map (fun d => Feature.mk FeatureType.CORE d) ++
    answer.details_important.map (fun d => Feature.mk FeatureType.DETAILS_IMPORTANT d)).enum

/-- The external LLM judge (`llm.invoke` with `FeatureAssessment` structured
output): fallible, one verdict per invocation. -/
def Judge := Feature → Except String FeatureAssessment

/-- Run the judge over the features in checklist order, stopping at the first
fault.  Returns the verdict pairs (or the fault) together with the number of
judge invocations actually made. -/
def judgeFeatures (judge : Judge) : List Feature → Except String Assessments × Nat
  | [] => (.ok [], 0)
  | f :: fs =>
    match judge f with
    | .error e => (.error e, 1)
    | .ok fa =>
      match judgeFeatures judge fs with
      | (.error e, n) => (.error e, n + 1)
      | (.ok pairs, n) => (.ok ((f, fa) :: pairs), n + 1)

/-- The Python enum member name, as stored in `feature_assessments` records. -/
def FeatureType.pyName : FeatureType → String
  | .CORE => "CORE"
  | .DETAILS_IMPORTANT => "DETAILS_IMPORTANT"

/-- One entry of the `feature_assessments` list built by
`assess_single_answer`. -/
structure FeatureRecord where
  feature : String
  feature_type : String
  satisfied : Bool
  motivation : String
deriving DecidableEq, Repr

/-- The three dict shapes returned by `assess_single_answer`. -/
inductive SingleAnswerResult where
  | no_response (score max_score : ℚ)
  | assessed (score max_score : ℚ) (statistics : Option ScoreStats)
      (breakdown : String) (feature_assessments : List FeatureRecord)
  | error (msg : String) (score max_score : ℚ)
deriving DecidableEq, Repr

/-- Embedding of `Assessor.assess_single_answer`.  The second component counts the judge
(LLM) invocations made while handling this answer. -/
def assess_single_answer (judge : Judge) (_question : Question) (checklist : Answer)
    (student_response : PyStr) (max_score : ℚ) : SingleAnswerResult × Nat :=
  if student_response.isEmpty || pyStrip student_response == ['-'] then
    (.no_response 0 max_score, 0)
  else
    match judgeFeatures judge ((enumerate_features checklist).map Prod.snd) with
    | (.error e, n) => (.error e 0 max_score, n)
    | (.ok pairs, n) =>
      let (score, breakdown, stats) := calculate_score pairs max_score
      (.assessed score max_score stats breakdown
        (pairs.map fun p =>
          FeatureRecord.mk p.1.description p.1.type.pyName p.2.satisfied p.2.motivation),
       n)

/-- One entry of `exam_questions`: question number, id, text and max score. -/
structure QuestionInfo where
  number : Nat
  id : String
  text : String
  score : ℚ
deriving DecidableEq, Repr

/-- One element of the `assessments` list built by `assess_student_exam`:
the per-question dict, with absent keys modelled as `none`. -/
structure QEntry where
  question_number : Nat
  question_id : String
  question_text : String
  status : String
  score : ℚ
  max_score : ℚ
  error : Option String
  breakdown : Option String
  statistics : Option ScoreStats
  feature_assessments : Option (List FeatureRecord)
  student_response : Option PyStr
deriving DecidableEq, Repr

/-- The body of the per-question loop of `assess_student_exam`: the missing-
response branch, the checklist/question resolution guarded by the per-question
`try`, and the call to `assess_single_answer` with the metadata update.
A failed `questions_store` lookup models the exception `questions_store.question`
raises for an unknown id; both it and a missing checklist are caught by the
per-question handler and become an error entry.  The second component counts
judge invocations for this question. -/
def process_question (judge : Judge) (questions_store : String → Option Question)
    (checklists : String → Option Answer) (student_responses : Nat → Option PyStr)
    (info : QuestionInfo) : QEntry × Nat :=
  match student_responses info.number with
  | none =>
    ({ question_number := info.number, question_id := info.id, question_text := info.text
       status := "no_response", score := 0, max_score := info.score
       error := none, breakdown := none, statistics := none
       feature_assessments := none, student_response := none }, 0)
  | some response_text =>
    match questions_store info.id with
    | none =>
      ({ question_number := info.number, question_id := info.id, question_text := info.text
         status := "error", score := 0, max_score := info.score
         error := some (s!"No question found with id {info.id}")
         breakdown := none, statistics := none
         feature_assessments := none, student_response := none }, 0)
    | some question =>
      match checklists info.id with
      | none =>
        ({ question_number := info.number, question_id := info.id, question_text := info.text
           status := "error", score := 0, max_score := info.score
           error := some (s!"No checklist found for question {info.id}")
           breakdown := none, statistics := none
           feature_assessments := none, student_response := none }, 0)
      | some checklist =>
        match assess_single_answer judge question checklist response_text info.score with
        | (.no_response s m, n) =>
          ({ question_number := info.number, question_id := info.id
             question_text := question.text
             status := "no_response", score := s, max_score := m
             error := none, breakdown := none, statistics := none
             feature_assessments := none, student_response := some response_text }, n)
        | (.assessed s m st bd fas, n) =>
          ({ question_number := info.number, question_id := info.id
             question_text := question.text
             status := "assessed", score := s, max_score := m
             error := none, breakdown := some bd, statistics := st
             feature_assessments := some fas, student_response := some response_text }, n)
        | (.error e s m, n) =>
          ({ question_number := info.number, question_id := info.id
             question_text := question.text
             status := "error", score := s, max_score := m
             error := some e, breakdown := none, statistics := none
             feature_assessments := none, student_response := some response_text }, n)

/-- The top-level result dict of `assess_student_exam`.  `original_grades` is
carried through for reporting only. -/
structure ExamResult where
  student_email : String
  calculated_score : ℚ
  max_score : ℚ
  percentage : ℚ
  scoring_system : String
  assessments : List QEntry
  original_grades : List (Nat × ℚ)
deriving DecidableEq, Repr

/-- Embedding of `Assessor.assess_student_exam` (the in-memory result; persistence is file
and out of scope).  Every per-question entry carries `score = 0` in the
branches where the Python loop skips the `total_score` increment, so the total
equals the sum of the entry scores; `total_max_score` is incremented by
`info.score` in every branch.  The second component counts judge invocations
over the whole exam. -/
def assess_student_exam (judge : Judge) (student_email : String)
    (exam_questions : List QuestionInfo) (student_responses : Nat → Option PyStr)
    (questions_store : String → Option Question) (checklists : String → Option Answer)
    (original_grades : List (Nat × ℚ)) : ExamResult × Nat :=
  let entries := exam_questions.map
    (process_question judge questions_store checklists student_responses)
  let assessments := entries.map Prod.fst
  let total_score := (assessments.map QEntry.score).sum
  let total_max_score := (exam_questions.map QuestionInfo.score).sum
  ({ student_email := student_email
     calculated_score := total_score
     max_score := total_max_score
     percentage := round1 (if 0 < total_max_score then total_score / total_max_score * 100 else 0)
     scoring_system := "70% Core + 30% Important_Details"
     assessments := assessments
     original_grades := original_grades },
   (entries.map Prod.snd).sum)

/-- Query cleaning from the mcp `assess_student_exam` tool: strip trailing
dots, then surrounding whitespace. -/
def clean_query (q : PyStr) : PyStr := pyStrip (pyRstripDot q)

/-- The combined per-entry condition of the single-pass roster scan in the mcp
`assess_student_exam` tool: case-insensitive exact match, or (query length at
least 10 and) case-insensitive prefix match. -/
def email_matches (clean : PyStr) (full_email : PyStr) : Bool :=
  pyLower full_email == pyLower clean ||
    (decide (10 ≤ clean.length) && (pyLower clean).isPrefixOf (pyLower full_email))

/-- Student resolution from the mcp `assess_student_exam` tool: clean the
query, then take the first roster entry (in iteration order) satisfying the
combined condition. -/
def find_student (student_email : PyStr) (roster : List PyStr) : Option PyStr :=
  roster.find? (email_matches (clean_query student_email))

/-- Proposition-level form of the combined matching condition, used to state
the resolution policy the code actually implements. -/
def MatchesSpec (c e : PyStr) : Prop :=
  pyLower e = pyLower c ∨ (10 ≤ c.length ∧ pyLower c <+: pyLower e)

/-- Consecutive slices of `k + 1` elements: the loop
`for i in range(0, len(students), batch_size)` with `batch_size = k + 1`. -/
def chunks (k : Nat) (l : List α) : List (List α) :=
  if h : l.isEmpty then [] else l.take (k + 1) :: chunks k (l.drop (k + 1))
termination_by l.length
decreasing_by
  have hne : l ≠ [] := by simpa using h
  have := List.length_pos.mpr hne
  simp only [List.length_drop]
  omega

/-- The partition of `distribute_node` in `multiAgents_client.py`:
`batch_size = len(students) // num_workers + 1`, then consecutive slices of
`batch_size` students. -/
def make_batches (students : List String) (num_workers : Nat) : List (List String) :=
  chunks (students.length / num_workers) students

/-- The mcp assessment payload as parsed by a worker: either a successful
assessment (no "error" key in the JSON) or an error payload. -/
inductive AssessOutcome where
  | ok (calculated_score max_score percentage : ℚ)
  | error (msg : String)
deriving DecidableEq, Repr

/-- One element of the `results` list of a worker. -/
structure WorkerResult where
  worker_id : Nat
  student : String
  score : ℚ
  max_score : ℚ
  percentage : ℚ
deriving DecidableEq, Repr

/-- Embedding of `worker_node` from `multiAgents_client.py`: assess each student of the
batch in order; a result is appended only when the payload has no "error" key
(a raised exception likewise appends nothing).  `state_worker_id` is the
0-based id from the worker state; the stored id is the displayed
`worker_id + 1`. -/
def worker_node (assess : String → AssessOutcome) (state_worker_id : Nat)
    (batch : List String) : List WorkerResult :=
  match batch with
  | [] => []
  | s :: rest =>
    match assess s with
    | .ok sc mx pct =>
      ⟨state_worker_id + 1, s, sc, mx, pct⟩ :: worker_node assess state_worker_id rest
    | .error _ => worker_node assess state_worker_id rest

/-- The detail rows of the final report built by `report_node`: the merged
assessments sorted by student identity (the stable Python `sorted`).  Every
student line of the report text is generated from exactly these rows. -/
def report_rows (assessments : List WorkerResult) : List WorkerResult :=
  assessments.mergeSort (fun a b => a.student ≤ b.student)

/-! ## Rounding lemmas -/

theorem floor_le_roundHalfEven (x : ℚ) : ⌊x⌋ ≤ roundHalfEven x := by
  unfold roundHalfEven
  split
  · exact le_refl _
  · split
    · omega
    · split <;> omega

theorem roundHalfEven_le_ceil (x : ℚ) : roundHalfEven x ≤ ⌈x⌉ := by
  unfold roundHalfEven
  split
  · exact Int.floor_le_ceil x
  · rename_i h1
    have hlt : (⌊x⌋ : ℚ) < x := by
      have h2 : (1 : ℚ)/2 ≤ x - ⌊x⌋ := le_of_not_lt h1
      linarith
    have hc : ⌊x⌋ + 1 ≤ ⌈x⌉ := by
      have := Int.lt_ceil.mpr hlt
      omega
    split
    · exact hc
    · split <;> omega

theorem roundHalfEven_intCast (n : ℤ) : roundHalfEven (n : ℚ) = n := by
  unfold roundHalfEven
  rw [Int.floor_intCast]
  norm_num

theorem round2_nonneg {x : ℚ} (h : 0 ≤ x) : 0 ≤ round2 x := by
  unfold round2
  have h1 : (0 : ℤ) ≤ ⌊x * 100⌋ := Int.floor_nonneg.mpr (by positivity)
  have h2 := floor_le_roundHalfEven (x * 100)
  have : (0 : ℚ) ≤ (roundHalfEven (x * 100) : ℚ) := by exact_mod_cast le_trans h1 h2
  linarith

theorem round2_le {x m : ℚ} (hx : x ≤ m) (hm : round2 m = m) : round2 x ≤ m := by
  unfold round2 at *
  set k := roundHalfEven (m * 100) with hk
  have hm100 : m * 100 = (k : ℚ) := by
    rw [← hm]
    field_simp
  have h1 : roundHalfEven (x * 100) ≤ ⌈x * 100⌉ := roundHalfEven_le_ceil _
  have h2 : ⌈x * 100⌉ ≤ k := Int.ceil_le.mpr (by rw [← hm100]; linarith)
  have h3 : (roundHalfEven (x * 100) : ℚ) ≤ (k : ℚ) := by exact_mod_cast le_trans h1 h2
  calc (roundHalfEven (x * 100) : ℚ) / 100 ≤ (k : ℚ) / 100 := by linarith
    _ = m := by rw [← hm]

theorem round2_idem (x : ℚ) : round2 (round2 x) = round2 x := by
  unfold round2
  rw [div_mul_cancel₀ _ (by norm_num : (100 : ℚ) ≠ 0), roundHalfEven_intCast]

/-! ## Counting lemmas for `calculate_score` -/

theorem core_satisfied_le (a : Assessments) : core_satisfied a ≤ core_total a := by
  unfold core_satisfied core_total
  refine (List.monotone_filter_right a ?_).length_le
  intro p hp
  simp only [decide_eq_true_eq] at *
  exact hp.1

theorem important_satisfied_le (a : Assessments) : important_satisfied a ≤ important_total a := by
  unfold important_satisfied important_total
  refine (List.monotone_filter_right a ?_).length_le
  intro p hp
  simp only [decide_eq_true_eq] at *
  exact hp.1

theorem ne_nil_of_core_total_pos {a : Assessments} (h : 0 < core_total a) : a ≠ [] := by
  rintro rfl
  simp [core_total] at h

theorem ne_nil_of_important_total_pos {a : Assessments} (h : 0 < important_total a) : a ≠ [] := by
  rintro rfl
  simp [important_total] at h

/-! ## Structure of `calculate_score` -/

theorem calculate_score_nil (m : ℚ) : calculate_score [] m = (0, "No features assessed", none) :=
  rfl

theorem calculate_score_ne_nil (a : Assessments) (m : ℚ) (ha : a ≠ []) :
    calculate_score a m =
      if 0 < core_total a ∧ 0 < important_total a then
        mkScoreResult (core_total a) (core_satisfied a) (important_total a)
          (important_satisfied a) (70/100) (30/100) "70% Core + 30% Important" m
      else if 0 < core_total a then
        mkScoreResult (core_total a) (core_satisfied a) (important_total a)
          (important_satisfied a) 1 0 "100% Core (no Important details)" m
      else if 0 < important_total a then
        mkScoreResult (core_total a) (core_satisfied a) (important_total a)
          (important_satisfied a) 0 1 "100% Important (no Core - unusual)" m
      else (0, "No features assessed", none) := by
  unfold calculate_score
  rw [if_neg (by simpa using ha)]

theorem mkResult_fst (ct cs it is_ : Nat) (wc wi : ℚ) (sys : String) (m : ℚ) :
    (mkScoreResult ct cs it is_ wc wi sys m).1 =
      round2 (((if 0 < ct then (cs : ℚ) / ct * wc else 0) +
               (if 0 < it then (is_ : ℚ) / it * wi else 0)) * m) := rfl

theorem mkResult_stats (ct cs it is_ : Nat) (wc wi : ℚ) (sys : String) (m : ℚ) :
    (mkScoreResult ct cs it is_ wc wi sys m).2.2 = some
      { core :=
          { total := ct, satisfied := cs
            percentage := round1 (if 0 < ct then (cs : ℚ) / ct * 100 else 0)
            weight := wc }
        details_important :=
          { total := it, satisfied := is_
            percentage := round1 (if 0 < it then (is_ : ℚ) / it * 100 else 0)
            weight := wi }
        scoring_system := sys } := rfl

theorem ratio_term_bounds {s t : Nat} (hst : s ≤ t) {w : ℚ} (hw : 0 ≤ w) :
    0 ≤ (if 0 < t then (s : ℚ) / t * w else 0) ∧
      (if 0 < t then (s : ℚ) / t * w else 0) ≤ w := by
  split
  · rename_i ht
    have ht' : (0 : ℚ) < t := by exact_mod_cast ht
    have hr0 : (0 : ℚ) ≤ (s : ℚ) / t := by positivity
    have hr1 : (s : ℚ) / t ≤ 1 :=
      div_le_one_of_le₀ (by exact_mod_cast hst) (le_of_lt ht')
    constructor
    · exact mul_nonneg hr0 hw
    · nlinarith
  · exact ⟨le_refl 0, hw⟩

theorem calculate_score_fst_eq (a : Assessments) (m : ℚ) (ha : a ≠ []) :
    ∃ p : ℚ, 0 ≤ p ∧ p ≤ 1 ∧ (calculate_score a m).1 = round2 (p * m) := by
  rw [calculate_score_ne_nil a m ha]
  by_cases h1 : 0 < core_total a ∧ 0 < important_total a
  · rw [if_pos h1, mkResult_fst]
    obtain ⟨hc0, hc1⟩ := ratio_term_bounds (core_satisfied_le a) (by norm_num : (0:ℚ) ≤ 70/100)
    obtain ⟨hi0, hi1⟩ :=
      ratio_term_bounds (important_satisfied_le a) (by norm_num : (0:ℚ) ≤ 30/100)
    exact ⟨_, by linarith, by linarith, rfl⟩
  · rw [if_neg h1]
    by_cases h2 : 0 < core_total a
    · rw [if_pos h2, mkResult_fst]
      obtain ⟨hc0, hc1⟩ := ratio_term_bounds (core_satisfied_le a) (by norm_num : (0:ℚ) ≤ 1)
      obtain ⟨hi0, hi1⟩ :=
        ratio_term_bounds (important_satisfied_le a) (le_refl (0:ℚ))
      exact ⟨_, by linarith, by linarith, rfl⟩
    · rw [if_neg h2]
      by_cases h3 : 0 < important_total a
      · rw [if_pos h3, mkResult_fst]
        obtain ⟨hc0, hc1⟩ := ratio_term_bounds (core_satisfied_le a) (le_refl (0:ℚ))
        obtain ⟨hi0, hi1⟩ :=
          ratio_term_bounds (important_satisfied_le a) (by norm_num : (0:ℚ) ≤ 1)
        exact ⟨_, by linarith, by linarith, rfl⟩
      · rw [if_neg h3]
        refine ⟨0, le_refl 0, zero_le_one, ?_⟩
        have : round2 (0 * m) = 0 := by
          rw [zero_mul]
          unfold round2
          rw [show (0 : ℚ) * 100 = ((0 : ℤ) : ℚ) from by norm_num, roundHalfEven_intCast]
          norm_num
        rw [this]

/-! ## Claim C1 -/

/-- C1: `calculate_score` selects weights by the mutually exclusive rule
evaluated in order: both groups present → coreWeight 0.70 and importantWeight
0.30; only Core present → 1.00/0.00; only ImportantDetail present → 0.00/1.00;
empty verdict dictionary → score 0.0, breakdown "No features assessed" and
empty stats. -/
theorem C1_weight_selection (a : Assessments) (m : ℚ) :
    (a = [] → calculate_score a m = (0, "No features assessed", none)) ∧
    (0 < core_total a → 0 < important_total a →
      ∃ st, (calculate_score a m).2.2 = some st ∧
        st.core.weight = 70/100 ∧ st.details_important.weight = 30/100) ∧
    (0 < core_total a → important_total a = 0 →
      ∃ st, (calculate_score a m).2.2 = some st ∧
        st.core.weight = 1 ∧ st.details_important.weight = 0) ∧
    (core_total a = 0 → 0 < important_total a →
      ∃ st, (calculate_score a m).2.2 = some st ∧
        st.core.weight = 0 ∧ st.details_important.weight = 1) := by
  refine ⟨fun h => by rw [h, calculate_score_nil], ?_, ?_, ?_⟩
  · intro hc hi
    rw [calculate_score_ne_nil a m (ne_nil_of_core_total_pos hc), if_pos ⟨hc, hi⟩,
      mkResult_stats]
    exact ⟨_, rfl, rfl, rfl⟩
  · intro hc hi
    rw [calculate_score_ne_nil a m (ne_nil_of_core_total_pos hc),
      if_neg (by omega : ¬(0 < core_total a ∧ 0 < important_total a)), if_pos hc,
      mkResult_stats]
    exact ⟨_, rfl, rfl, rfl⟩
  · intro hc hi
    rw [calculate_score_ne_nil a m (ne_nil_of_important_total_pos hi),
      if_neg (by omega : ¬(0 < core_total a ∧ 0 < important_total a)),
      if_neg (by omega : ¬(0 < core_total a)), if_pos hi, mkResult_stats]
    exact ⟨_, rfl, rfl, rfl⟩

/-- Witness for C1 at concrete inputs, one per weight case. -/
theorem C1_weight_selection_witness :
    (calculate_score [] 5 = (0, "No features assessed", none)) ∧
    (∃ st, (calculate_score
        [(⟨.CORE, "a"⟩, ⟨true, "m"⟩), (⟨.DETAILS_IMPORTANT, "b"⟩, ⟨false, "m"⟩)] 5).2.2 =
          some st ∧ st.core.weight = 70/100 ∧ st.details_important.weight = 30/100) ∧
    (∃ st, (calculate_score [(⟨.CORE, "a"⟩, ⟨true, "m"⟩)] 5).2.2 = some st ∧
      st.core.weight = 1 ∧ st.details_important.weight = 0) ∧
    (∃ st, (calculate_score [(⟨.DETAILS_IMPORTANT, "b"⟩, ⟨false, "m"⟩)] 5).2.2 = some st ∧
      st.core.weight = 0 ∧ st.details_important.weight = 1) :=
  ⟨(C1_weight_selection [] 5).1 rfl,
   (C1_weight_selection _ 5).2.1 (by decide) (by decide),
   (C1_weight_selection _ 5).2.2.1 (by decide) (by decide),
   (C1_weight_selection _ 5).2.2.2 (by decide) (by decide)⟩

/-! ## Claim C2 -/

/-- C2 counterexample: the claim fails as stated.  With a single satisfied
Core feature and `maxScore = 0.375` (non-negative, non-empty verdicts), the
score is `round(1.0 · 0.375, 2) = 0.38 > maxScore`.  The input 0.375 = 3/8 is
a dyadic rational, exactly representable as a binary float, and the rounded
digit is an exact decimal tie resolved to even, so the running program
computes the same 0.38 here: the divergence is real, not an artifact of the
exact-rational rounding model. -/
theorem C2_counterexample :
    ((3 : ℚ)/8 ≥ 0) ∧
    ([(⟨.CORE, "a"⟩, ⟨true, "m"⟩)] : Assessments) ≠ [] ∧
    ¬((calculate_score [(⟨.CORE, "a"⟩, ⟨true, "m"⟩)] (3/8)).1 ≤ 3/8) := by
  refine ⟨by norm_num, by simp, ?_⟩
  have h : (calculate_score [(⟨.CORE, "a"⟩, ⟨true, "m"⟩)] (3/8)).1 = 19/50 := by
    simp +decide [calculate_score, mkScoreResult, core_total, core_satisfied,
      important_total, important_satisfied, List.filter]
    norm_num [round2, roundHalfEven]
  rw [h]
  norm_num

/-- C2 (amended: the upper bound needs `maxScore` to be expressible with at
most two decimal places, as rounding the score to 2 decimals can otherwise
exceed `maxScore`): for every non-empty verdict dictionary and non-negative
`maxScore` with `round(maxScore, 2) == maxScore`, the score satisfies
`0 ≤ score ≤ maxScore` and `score == round(score, 2)`. -/
theorem C2_score_bounds (a : Assessments) (m : ℚ) (ha : a ≠ []) (hm0 : 0 ≤ m)
    (hm : round2 m = m) :
    0 ≤ (calculate_score a m).1 ∧ (calculate_score a m).1 ≤ m ∧
      round2 (calculate_score a m).1 = (calculate_score a m).1 := by
  obtain ⟨p, hp0, hp1, hps⟩ := calculate_score_fst_eq a m ha
  rw [hps]
  refine ⟨round2_nonneg (mul_nonneg hp0 hm0), round2_le ?_ hm, round2_idem _⟩
  nlinarith

/-- Witness for C2 at a concrete input. -/
theorem C2_score_bounds_witness :
    0 ≤ (calculate_score [(⟨.CORE, "a"⟩, ⟨true, "m"⟩)] 5).1 ∧
      (calculate_score [(⟨.CORE, "a"⟩, ⟨true, "m"⟩)] 5).1 ≤ 5 ∧
      round2 (calculate_score [(⟨.CORE, "a"⟩, ⟨true, "m"⟩)] 5).1 =
        (calculate_score [(⟨.CORE, "a"⟩, ⟨true, "m"⟩)] 5).1 :=
  C2_score_bounds _ 5 (by simp) (by norm_num)
    (by unfold round2
        rw [show (5 : ℚ) * 100 = ((500 : ℤ) : ℚ) from by norm_num, roundHalfEven_intCast]
        norm_num)

/-! ## Claim C3 -/

/-- C3: for every question whose student answer text is empty, missing, or
strips to the sentinel "-", the assessment returns status `no_response` with
score 0.0 and the maxScore of the question, and the judge (LLM client) is invoked
zero times for that question.  The empty/sentinel cases go through
`assess_single_answer`; the missing case is the per-question loop branch of
`assess_student_exam`, modelled by `process_question`. -/
theorem C3_no_response (judge : Judge) (q : Question) (checklist : Answer)
    (resp : PyStr) (m : ℚ) (h : resp = [] ∨ pyStrip resp = ['-']) :
    assess_single_answer judge q checklist resp m = (.no_response 0 m, 0) ∧
    ∀ (store : String → Option Question) (cls : String → Option Answer)
      (responses : Nat → Option PyStr) (info : QuestionInfo),
      responses info.number = none →
      process_question judge store cls responses info =
        ({ question_number := info.number, question_id := info.id, question_text := info.text
           status := "no_response", score := 0, max_score := info.score
           error := none, breakdown := none, statistics := none
           feature_assessments := none, student_response := none }, 0) := by
  constructor
  · unfold assess_single_answer
    rcases h with rfl | h
    · rfl
    · rw [if_pos (by simp [h])]
  · intro store cls responses info hr
    unfold process_question
    rw [hr]

/-- Witness for C3 at concrete inputs: the sentinel answer `"-"` and a missing
response, with a judge that would fail if it were ever invoked. -/
theorem C3_no_response_witness :
    assess_single_answer (fun _ => Except.error ("no llm")) ⟨"Q1", "t"⟩ ⟨["c"], []⟩ ['-'] 3 =
      (.no_response 0 3, 0) ∧
    process_question (fun _ => Except.error ("no llm")) (fun _ => none) (fun _ => none)
      (fun _ => none) ⟨1, "Q1", "t", 3⟩ =
      ({ question_number := 1, question_id := "Q1", question_text := "t"
         status := "no_response", score := 0, max_score := 3
         error := none, breakdown := none, statistics := none
         feature_assessments := none, student_response := none }, 0) := by
  have h := C3_no_response (fun _ => Except.error ("no llm")) ⟨"Q1", "t"⟩ ⟨["c"], []⟩ ['-'] 3
    (Or.inr (by decide))
  exact ⟨h.1, h.2 (fun _ => none) (fun _ => none) (fun _ => none) ⟨1, "Q1", "t", 3⟩ rfl⟩

/-! ## Claim C4 -/

theorem email_matches_iff (c e : PyStr) : email_matches c e = true ↔ MatchesSpec c e := by
  unfold email_matches MatchesSpec
  simp [ List.isPrefixOf_iff_prefix]

/-- C4 counterexample: the claimed three-tier priority (exact match anywhere in
the roster beating a prefix match of an earlier entry) fails.  With query
"abcdefghij" (length 10) and roster ["abcdefghijX", "abcdefghij"], the code
returns the earlier prefix match, not the later exact match. -/
theorem C4_counterexample :
    find_student ("abcdefghij".data) ["abcdefghijX".data, "abcdefghij".data] =
      some ("abcdefghijX".data) ∧
    find_student ("abcdefghij".data) ["abcdefghijX".data, "abcdefghij".data] ≠
      some ("abcdefghij".data) := by
  constructor <;> decide

/-- C4 (amended: the code does a single roster pass with one combined
condition, not three prioritized tiers): resolution cleans the query
(stripping trailing dots, then surrounding whitespace) and returns the first
roster entry, in iteration order, whose identity matches the cleaned query
case-insensitively exactly or — when the cleaned query has length ≥ 10 —
starts with it case-insensitively; a match by either rule on an earlier entry
wins over any match on a later entry. -/
theorem C4_single_pass (q : PyStr) (roster : List PyStr) (e : PyStr) :
    find_student q roster = some e ↔
      MatchesSpec (clean_query q) e ∧
      ∃ pre post, roster = pre ++ e :: post ∧
        ∀ x ∈ pre, ¬ MatchesSpec (clean_query q) x := by
  rw [find_student, List.find?_eq_some]
  constructor
  · rintro ⟨hm, pre, post, hro, hpre⟩
    refine ⟨(email_matches_iff _ _).mp hm, pre, post, hro, fun x hx hms => ?_⟩
    have h1 := hpre x hx
    rw [(email_matches_iff _ _).mpr hms] at h1
    simp at h1
  · rintro ⟨hm, pre, post, hro, hpre⟩
    refine ⟨(email_matches_iff _ _).mpr hm, pre, post, hro, fun x hx => ?_⟩
    have h2 : ¬ email_matches (clean_query q) x = true := fun hc =>
      hpre x hx ((email_matches_iff _ _).mp hc)
    rw [Bool.not_eq_true] at h2
    simp [h2]

/-- Witness for C4 at a concrete input. -/
theorem C4_single_pass_witness :
    MatchesSpec (clean_query ("abcdefghij".data)) "abcdefghijX".data ∧
    ∃ pre post,
      ["abcdefghijX".data, "abcdefghij".data] = pre ++ "abcdefghijX".data :: post ∧
      ∀ x ∈ pre, ¬ MatchesSpec (clean_query ("abcdefghij".data)) x :=
  (C4_single_pass ("abcdefghij".data) ["abcdefghijX".data, "abcdefghij".data]
    "abcdefghijX".data).mp (by decide)

/-! ## Partition lemmas (`chunks`, `make_batches`) -/

theorem chunks_flatten (k : Nat) (l : List α) : (chunks k l).flatten = l := by
  induction l using chunks.induct k with
  | case1 l hl => rw [chunks, dif_pos hl]; simpa using hl
  | case2 l hl ih =>
    rw [chunks, dif_neg hl]
    simp [ih]

theorem chunks_eq_nil_iff (k : Nat) (l : List α) : chunks k l = [] ↔ l = [] := by
  rw [chunks]
  split
  · rename_i h
    simpa using h
  · rename_i h
    simp only [List.cons_ne_nil, false_iff]
    simpa using h

theorem chunks_mem_length (k : Nat) (l : List α) :
    ∀ b ∈ chunks k l, 0 < b.length ∧ b.length ≤ k + 1 := by
  induction l using chunks.induct k with
  | case1 l hl =>
    rw [chunks, dif_pos hl]
    intro b hb
    simp at hb
  | case2 l hl ih =>
    rw [chunks, dif_neg hl]
    intro b hb
    rcases List.mem_cons.mp hb with rfl | hb
    · have hpos : 0 < l.length := List.length_pos.mpr (by simpa using hl)
      constructor <;> simp [List.length_take] <;> omega
    · exact ih b hb

theorem chunks_inner_length (k : Nat) (l : List α) :
    ∀ i, i + 1 < (chunks k l).length →
      ((chunks k l)[i]?).map List.length = some (k + 1) := by
  induction l using chunks.induct k with
  | case1 l hl =>
    intro i h
    rw [chunks, dif_pos hl] at h
    simp at h
  | case2 l hl ih =>
    intro i h
    rw [chunks, dif_neg hl] at h ⊢
    cases i with
    | zero =>
      have hrest : 0 < (chunks k (l.drop (k + 1))).length := by simpa using h
      have hdrop : l.drop (k + 1) ≠ [] := by
        intro hc
        rw [(chunks_eq_nil_iff k (l.drop (k + 1))).mpr hc] at hrest
        simp at hrest
      have hlen : k + 1 < l.length := by
        have h1 : 0 < (l.drop (k + 1)).length := List.length_pos.mpr hdrop
        simp only [List.length_drop] at h1
        omega
      simp [List.length_take]
      omega
    | succ j =>
      simp only [List.getElem?_cons_succ]
      apply ih
      simpa using h

/-! ## Claim C5 -/

/-- C5 counterexample: the claim says each batch holds `ceil(R/W)` students
(last possibly shorter).  With 6 students and 3 workers, `ceil(6/3) = 2` but
the code makes batches of `6 // 3 + 1 = 3` students, so a (non-last) batch
exceeds the claimed size. -/
theorem C5_counterexample :
    (["s1", "s2", "s3", "s4", "s5", "s6"].length + 3 - 1) / 3 = 2 ∧
    ¬ ∀ b ∈ make_batches ["s1", "s2", "s3", "s4", "s5", "s6"] 3,
        b.length ≤ (["s1", "s2", "s3", "s4", "s5", "s6"].length + 3 - 1) / 3 := by
  refine ⟨by norm_num, fun hall => ?_⟩
  have hmem : ["s1", "s2", "s3"] ∈ make_batches ["s1", "s2", "s3", "s4", "s5", "s6"] 3 := by
    simp [make_batches, chunks]
  have := hall _ hmem
  simp at this

/-- C5 (amended: each batch contains `R // W + 1` students — floor division
plus one — not `ceil(R/W)`; the two agree only when `W` does not divide `R`):
the partition splits the roster into contiguous, order-preserving batches of
`R // W + 1` students each, with only the last batch possibly shorter (and
never empty). -/
theorem C5_batch_sizes (students : List String) (W : Nat) (_hW : 1 ≤ W) :
    (∀ i, i + 1 < (make_batches students W).length →
      ((make_batches students W)[i]?).map List.length =
        some (students.length / W + 1)) ∧
    ∀ b ∈ make_batches students W,
      0 < b.length ∧ b.length ≤ students.length / W + 1 :=
  ⟨chunks_inner_length _ _, chunks_mem_length _ _⟩

/-- Witness for C5 at a concrete input (3 students, 2 workers). -/
theorem C5_batch_sizes_witness :
    ((make_batches ["a", "b", "c"] 2)[0]?).map List.length =
      some (["a", "b", "c"].length / 2 + 1) ∧
    ∀ b ∈ make_batches ["a", "b", "c"] 2,
      0 < b.length ∧ b.length ≤ ["a", "b", "c"].length / 2 + 1 := by
  have h := C5_batch_sizes ["a", "b", "c"] 2 (by norm_num)
  exact ⟨h.1 0 (by simp [make_batches, chunks]), h.2⟩

/-! ## Claim C6 -/

/-- C6: the batches are pairwise disjoint (for a duplicate-free roster) and
their concatenation in batch order equals the original roster — no student
lost, none duplicated, order preserved. -/
theorem C6_partition (students : List String) (W : Nat) :
    (make_batches students W).flatten = students ∧
    (students.Nodup → (make_batches students W).Pairwise List.Disjoint) := by
  refine ⟨chunks_flatten _ _, fun hnd => ?_⟩
  have h := List.nodup_flatten.mp (show (make_batches students W).flatten.Nodup by
    rw [show (make_batches students W).flatten = students from chunks_flatten _ _]
    exact hnd)
  exact h.2

/-- Witness for C6 at a concrete input. -/
theorem C6_partition_witness :
    (make_batches ["a", "b", "c"] 2).flatten = ["a", "b", "c"] ∧
    (make_batches ["a", "b", "c"] 2).Pairwise List.Disjoint := by
  have h := C6_partition ["a", "b", "c"] 2
  exact ⟨h.1, h.2 (by decide)⟩

/-! ## Shape lemmas for `assess_single_answer` and `process_question` -/

theorem assess_single_answer_shape (judge : Judge) (q : Question) (c : Answer)
    (r : PyStr) (m : ℚ) :
    (∃ n, assess_single_answer judge q c r m = (.no_response 0 m, n)) ∨
    (∃ s st bd fas n, assess_single_answer judge q c r m = (.assessed s m st bd fas, n)) ∨
    (∃ e n, assess_single_answer judge q c r m = (.error e 0 m, n)) := by
  unfold assess_single_answer
  split
  · exact Or.inl ⟨0, rfl⟩
  · rcases hj : judgeFeatures judge ((enumerate_features c).map Prod.snd) with ⟨res, n⟩
    cases res with
    | error e =>
      right; right
      exact ⟨e, n, rfl⟩
    | ok pairs =>
      right; left
      rcases hcs : calculate_score pairs m with ⟨s, bd, st⟩
      exact ⟨s, st, bd,
        pairs.map (fun p =>
          FeatureRecord.mk p.1.description p.1.type.pyName p.2.satisfied p.2.motivation),
        n, by simp only [hcs]⟩

theorem assess_single_answer_judge_error (judge : Judge) (q : Question) (c : Answer)
    (r : PyStr) (m : ℚ) (e : String) (n : Nat)
    (hcond : ¬(r.isEmpty || pyStrip r == ['-']) = true)
    (hj : judgeFeatures judge ((enumerate_features c).map Prod.snd) = (.error e, n)) :
    assess_single_answer judge q c r m = (.error e 0 m, n) := by
  unfold assess_single_answer
  rw [if_neg hcond, hj]

theorem process_question_fields (judge : Judge) (store : String → Option Question)
    (cls : String → Option Answer) (responses : Nat → Option PyStr) (info : QuestionInfo) :
    (process_question judge store cls responses info).1.question_number = info.number ∧
    (process_question judge store cls responses info).1.question_id = info.id ∧
    (process_question judge store cls responses info).1.max_score = info.score := by
  unfold process_question
  cases hr : responses info.number with
  | none => exact ⟨rfl, rfl, rfl⟩
  | some r =>
    cases hq : store info.id with
    | none => exact ⟨rfl, rfl, rfl⟩
    | some q =>
      cases hc : cls info.id with
      | none => exact ⟨rfl, rfl, rfl⟩
      | some c =>
        rcases assess_single_answer_shape judge q c r info.score with
          ⟨n, h⟩ | ⟨s, st, bd, fas, n, h⟩ | ⟨e, n, h⟩ <;> simp [h]

theorem process_question_lookup_error (judge : Judge) (store : String → Option Question)
    (cls : String → Option Answer) (responses : Nat → Option PyStr) (info : QuestionInfo)
    (hr : (responses info.number).isSome = true)
    (h : store info.id = none ∨ cls info.id = none) :
    (process_question judge store cls responses info).1.status = "error" ∧
    (process_question judge store cls responses info).1.score = 0 ∧
    (process_question judge store cls responses info).1.error.isSome = true := by
  unfold process_question
  cases hrr : responses info.number with
  | none => rw [hrr] at hr; simp at hr
  | some r =>
    rcases h with h | h
    · simp [h]
    · cases hq : store info.id with
      | none => exact ⟨rfl, rfl, rfl⟩
      | some q => simp [h]

theorem process_question_judge_error (judge : Judge) (store : String → Option Question)
    (cls : String → Option Answer) (responses : Nat → Option PyStr) (info : QuestionInfo)
    (r : PyStr) (q : Question) (c : Answer) (e : String) (n : Nat)
    (hr : responses info.number = some r) (hq : store info.id = some q)
    (hc : cls info.id = some c) (hre : r ≠ []) (hsent : pyStrip r ≠ ['-'])
    (hj : judgeFeatures judge ((enumerate_features c).map Prod.snd) = (.error e, n)) :
    (process_question judge store cls responses info).1.status = "error" ∧
    (process_question judge store cls responses info).1.score = 0 ∧
    (process_question judge store cls responses info).1.error = some e := by
  unfold process_question
  simp [hr, hq, hc,
    assess_single_answer_judge_error judge q c r info.score e n
      (by simp [List.isEmpty_iff, hre, hsent]) hj]

/-! ## Claim C7 -/

/-- C7: per-question failure isolation and coverage.  The assessment list has
exactly one entry per exam question, in exam order, each entry produced from
its own question alone (so the failure of one question never affects the others);
an entry whose checklist is missing or whose question is unresolvable, or
whose judge call raises, has status "error", score 0.0, the per-question
maxScore and an error message. -/
theorem C7_isolation_coverage (judge : Judge) (email : String)
    (qs : List QuestionInfo) (responses : Nat → Option PyStr)
    (store : String → Option Question) (cls : String → Option Answer)
    (og : List (Nat × ℚ)) :
    (assess_student_exam judge email qs responses store cls og).1.assessments =
      qs.map (fun info => (process_question judge store cls responses info).1) ∧
    (assess_student_exam judge email qs responses store cls og).1.assessments.length =
      qs.length ∧
    ∀ info : QuestionInfo,
      ((process_question judge store cls responses info).1.question_number = info.number ∧
       (process_question judge store cls responses info).1.question_id = info.id ∧
       (process_question judge store cls responses info).1.max_score = info.score) ∧
      ((responses info.number).isSome = true →
        store info.id = none ∨ cls info.id = none →
        (process_question judge store cls responses info).1.status = "error" ∧
        (process_question judge store cls responses info).1.score = 0 ∧
        (process_question judge store cls responses info).1.error.isSome = true) ∧
      (∀ r q c e n, responses info.number = some r → store info.id = some q →
        cls info.id = some c → r ≠ [] → pyStrip r ≠ ['-'] →
        judgeFeatures judge ((enumerate_features c).map Prod.snd) = (.error e, n) →
        (process_question judge store cls responses info).1.status = "error" ∧
        (process_question judge store cls responses info).1.score = 0 ∧
        (process_question judge store cls responses info).1.error = some e) := by
  refine ⟨?_, ?_, fun info => ⟨process_question_fields judge store cls responses info,
    fun hr h => process_question_lookup_error judge store cls responses info hr h,
    fun r q c e n hr hq hc hre hsent hj =>
      process_question_judge_error judge store cls responses info r q c e n
        hr hq hc hre hsent hj⟩⟩
  · simp only [assess_student_exam, List.map_map]
    rfl
  · simp [assess_student_exam]

/-- Witness for C7 at concrete inputs: a two-question exam, a missing
checklist, and a failing judge. -/
theorem C7_isolation_coverage_witness :
    (assess_student_exam (fun _ => Except.error ("down")) "s@x.it"
        [⟨1, "Q1", "t1", 3⟩, ⟨2, "Q2", "t2", 3⟩] (fun _ => some ['x'])
        (fun _ => some ⟨"Q1", "t1"⟩) (fun _ => none) []).1.assessments.length = 2 ∧
    ((process_question (fun _ => Except.error ("down")) (fun _ => some ⟨"Q1", "t1"⟩)
        (fun _ => none) (fun _ => some ['x']) ⟨1, "Q1", "t1", 3⟩).1.status = "error" ∧
      (process_question (fun _ => Except.error ("down")) (fun _ => some ⟨"Q1", "t1"⟩)
        (fun _ => none) (fun _ => some ['x']) ⟨1, "Q1", "t1", 3⟩).1.score = 0 ∧
      (process_question (fun _ => Except.error ("down")) (fun _ => some ⟨"Q1", "t1"⟩)
        (fun _ => none) (fun _ => some ['x']) ⟨1, "Q1", "t1", 3⟩).1.error.isSome = true) ∧
    ((process_question (fun _ => Except.error ("down")) (fun _ => some ⟨"Q1", "t1"⟩)
        (fun _ => some ⟨["c1"], []⟩) (fun _ => some ['x']) ⟨1, "Q1", "t1", 3⟩).1.status =
          "error" ∧
      (process_question (fun _ => Except.error ("down")) (fun _ => some ⟨"Q1", "t1"⟩)
        (fun _ => some ⟨["c1"], []⟩) (fun _ => some ['x']) ⟨1, "Q1", "t1", 3⟩).1.score = 0 ∧
      (process_question (fun _ => Except.error ("down")) (fun _ => some ⟨"Q1", "t1"⟩)
        (fun _ => some ⟨["c1"], []⟩) (fun _ => some ['x']) ⟨1, "Q1", "t1", 3⟩).1.error =
          some ("down")) := by
  have h1 := C7_isolation_coverage (fun _ => Except.error ("down")) "s@x.it"
    [⟨1, "Q1", "t1", 3⟩, ⟨2, "Q2", "t2", 3⟩] (fun _ => some ['x'])
    (fun _ => some ⟨"Q1", "t1"⟩) (fun _ => none) []
  have h2 := C7_isolation_coverage (fun _ => Except.error ("down")) "s@x.it"
    [⟨1, "Q1", "t1", 3⟩, ⟨2, "Q2", "t2", 3⟩] (fun _ => some ['x'])
    (fun _ => some ⟨"Q1", "t1"⟩) (fun _ => some ⟨["c1"], []⟩) []
  exact ⟨h1.2.1,
    (h1.2.2 ⟨1, "Q1", "t1", 3⟩).2.1 rfl (Or.inr rfl),
    (h2.2.2 ⟨1, "Q1", "t1", 3⟩).2.2 ['x'] ⟨"Q1", "t1"⟩ ⟨["c1"], []⟩ "down" 1
      rfl rfl rfl (by simp) (by decide) rfl⟩

/-! ## Claim C8 -/

theorem worker_node_students (assess : String → AssessOutcome) (wid : Nat)
    (batch : List String) :
    (worker_node assess wid batch).map WorkerResult.student =
      batch.filter (fun s => match assess s with
        | .ok _ _ _ => true
        | .error _ => false) := by
  induction batch with
  | nil => rfl
  | cons s rest ih =>
    unfold worker_node
    cases h : assess s with
    | ok sc mx pct => simp [List.filter_cons, h, ih]
    | error e => simp [List.filter_cons, h, ih]

/-- C8 counterexample: the claim fails as stated.  In a batch where the assessment
of student bob returns an error payload, bob appears in no worker result and in no
row of the final report — the failure is silently omitted, not marked. -/
theorem C8_counterexample :
    "bob" ∈ ["alice", "bob"] ∧
    (worker_node (fun s => if s = "bob" then AssessOutcome.error ("assessment failed")
        else AssessOutcome.ok 10 27 37) 0 ["alice", "bob"]).map WorkerResult.student =
      ["alice"] ∧
    (report_rows (worker_node (fun s => if s = "bob" then AssessOutcome.error ("assessment failed")
        else AssessOutcome.ok 10 27 37) 0 ["alice", "bob"])).map WorkerResult.student =
      ["alice"] := by
  refine ⟨by simp, ?_, ?_⟩
  · simp +decide [worker_node]
  · simp +decide [report_rows, worker_node, List.mergeSort_singleton]

/-- C8 (amended: a student whose assessment fails is omitted from the worker
results and hence from the final report, rather than appearing marked as
failed): the worker results list exactly the students whose assessment payload
had no error, in batch order, and a student whose assessment errored appears
in no report row. -/
theorem C8_failed_omitted (assess : String → AssessOutcome) (wid : Nat)
    (batch : List String) :
    (worker_node assess wid batch).map WorkerResult.student =
      batch.filter (fun s => match assess s with
        | .ok _ _ _ => true
        | .error _ => false) ∧
    ∀ s e, assess s = .error e →
      ∀ r ∈ report_rows (worker_node assess wid batch), r.student ≠ s := by
  refine ⟨worker_node_students assess wid batch, fun s e he r hr hcontra => ?_⟩
  have hmem : r ∈ worker_node assess wid batch :=
    (List.mergeSort_perm (worker_node assess wid batch) _).mem_iff.mp hr
  have hs : r.student ∈ (worker_node assess wid batch).map WorkerResult.student :=
    List.mem_map_of_mem _ hmem
  rw [worker_node_students, hcontra] at hs
  have hp := List.of_mem_filter hs
  rw [he] at hp
  simp at hp

/-- Witness for C8 at a concrete input. -/
theorem C8_failed_omitted_witness :
    ({ worker_id := 3, student := "alice", score := 10, max_score := 27
       percentage := 37 } : WorkerResult).student ≠ "bob" := by
  have h := C8_failed_omitted
    (fun s => if s = "bob" then AssessOutcome.error ("boom") else AssessOutcome.ok 10 27 37)
    2 ["alice", "bob"]
  refine h.2 ("bob") ("boom") (by simp) _ ?_
  simp +decide [report_rows, worker_node, List.mergeSort_singleton]

/-! ## Claim C9 -/

/-- C9: `Feature.weight_percentage` returns 0.70 for a Core feature and 0.20
for an ImportantDetail feature — a per-feature weight that differs from the
0.30 important-group weight recorded by `calculate_score` (which never
consults `weight_percentage`: its weights are the literals shown in C1). -/
theorem C9_weight_percentage (f g : Feature) (hf : f.type = .CORE)
    (hg : g.type = .DETAILS_IMPORTANT) :
    f.weight_percentage = 70/100 ∧ g.weight_percentage = 20/100 ∧
    ∀ (a : Assessments) (m : ℚ), 0 < core_total a → 0 < important_total a →
      ∃ st, (calculate_score a m).2.2 = some st ∧
        st.details_important.weight = 30/100 ∧
        st.details_important.weight ≠ g.weight_percentage := by
  have hfw : f.weight_percentage = 70/100 := by
    unfold Feature.weight_percentage
    rw [hf]
  have hgw : g.weight_percentage = 20/100 := by
    unfold Feature.weight_percentage
    rw [hg]
  refine ⟨hfw, hgw, fun a m hc hi => ?_⟩
  rw [calculate_score_ne_nil a m (ne_nil_of_core_total_pos hc), if_pos ⟨hc, hi⟩,
    mkResult_stats]
  exact ⟨_, rfl, rfl, by rw [hgw]; norm_num⟩

/-- Witness for C9 at concrete features and verdicts. -/
theorem C9_weight_percentage_witness :
    (Feature.mk .CORE ("x")).weight_percentage = 70/100 ∧
    (Feature.mk .DETAILS_IMPORTANT ("y")).weight_percentage = 20/100 ∧
    ∃ st, (calculate_score
        [(⟨.CORE, "x"⟩, ⟨true, "m"⟩), (⟨.DETAILS_IMPORTANT, "y"⟩, ⟨false, "m"⟩)] 3).2.2 =
          some st ∧
      st.details_important.weight = 30/100 ∧
      st.details_important.weight ≠ (Feature.mk .DETAILS_IMPORTANT ("y")).weight_percentage := by
  have h := C9_weight_percentage ⟨.CORE, "x"⟩ ⟨.DETAILS_IMPORTANT, "y"⟩ rfl rfl
  exact ⟨h.1, h.2.1, h.2.2 _ 3 (by decide) (by decide)⟩

/-! ## Claim C10 -/

theorem calculate_score_scoring_system (a : Assessments) (m : ℚ) (st : ScoreStats)
    (h : (calculate_score a m).2.2 = some st) :
    st.scoring_system = "70% Core + 30% Important" ∨
    st.scoring_system = "100% Core (no Important details)" ∨
    st.scoring_system = "100% Important (no Core - unusual)" := by
  by_cases ha : a = []
  · rw [ha, calculate_score_nil] at h
    simp at h
  · rw [calculate_score_ne_nil a m ha] at h
    split at h
    · rw [mkResult_stats] at h
      exact Or.inl (by rw [← Option.some.inj h])
    · split at h
      · rw [mkResult_stats] at h
        exact Or.inr (Or.inl (by rw [← Option.some.inj h]))
      · split at h
        · rw [mkResult_stats] at h
          exact Or.inr (Or.inr (by rw [← Option.some.inj h]))
        · simp at h

/-- C10: the top-level `scoring_system` field of every student result is the
constant string "70% Core + 30% Important_Details", regardless of which weight
case was actually applied to each individual question (the per-question stats
label is always one of the three `calculate_score` labels, never that
constant). -/
theorem C10_scoring_system_label (judge : Judge) (email : String)
    (qs : List QuestionInfo) (responses : Nat → Option PyStr)
    (store : String → Option Question) (cls : String → Option Answer)
    (og : List (Nat × ℚ)) :
    (assess_student_exam judge email qs responses store cls og).1.scoring_system =
      "70% Core + 30% Important_Details" ∧
    ∀ (a : Assessments) (m : ℚ) (st : ScoreStats),
      (calculate_score a m).2.2 = some st →
      st.scoring_system ≠ "70% Core + 30% Important_Details" := by
  refine ⟨rfl, fun a m st h hcontra => ?_⟩
  rcases calculate_score_scoring_system a m st h with h1 | h1 | h1 <;>
    rw [hcontra] at h1 <;> exact absurd h1 (by decide)

/-- Witness for C10 at a concrete input (one satisfied Core feature, so the
per-question label is the 100%-Core one). -/
theorem C10_scoring_system_label_witness :
    (assess_student_exam (fun _ => Except.error ("e")) "s" [] (fun _ => none)
      (fun _ => none) (fun _ => none) []).1.scoring_system =
      "70% Core + 30% Important_Details" ∧
    ({ core := { total := 1, satisfied := 1, percentage := 100, weight := 1 }
       details_important := { total := 0, satisfied := 0, percentage := 0, weight := 0 }
       scoring_system := "100% Core (no Important details)" } : ScoreStats).scoring_system ≠
      "70% Core + 30% Important_Details" := by
  have h := C10_scoring_system_label (fun _ => Except.error ("e")) "s" [] (fun _ => none)
    (fun _ => none) (fun _ => none) []
  refine ⟨h.1, h.2 [(⟨.CORE, "a"⟩, ⟨true, "m"⟩)] 3 _ ?_⟩
  simp +decide [calculate_score, mkScoreResult, core_total, core_satisfied,
    important_total, important_satisfied, List.filter]
  norm_num [round1, roundHalfEven]

end ExamCorrector
